import Mathlib

/-!
# Verification of `supply_planning.py`

A shallow embedding of the transshipment optimization script
`src/supply_planning.py` (samirsaci/supply-planning).

Modelling conventions:

* A pandas `DataFrame` is a row-major rational matrix `Mat`; the code's
  positional cell access `df.iloc[i, j]` is `iloc df i j`.
* The script accesses cost cells as `df.iloc[i, j+1]` and demand cells as
  `df.iloc[j, 1]`: column 0 of each table is a label column per the
  repository's data layout, so the cost of plant `p` to DC `d` is the cell
  at row `p`, column `d+1`, and the demand of store `s` is the cell at
  row `s`, column 1.
* PuLP decision variables are the inductive type `Var`; the script keys
  them 1-based (`I[i+1, j+1]`, `O[i+1, j+1]`), which is kept verbatim.
* A PuLP model is `LpModel`: a linear objective and a list of linear
  constraints, each with a comparison sense, exactly as assembled in
  `optimize_supply_planning` (lines 67-109).
* The external solver (PuLP/CBC) is not part of the repository; it is
  modelled abstractly: a solution it may report as `Optimal` is any
  integer, nonnegative assignment that is feasible and objective-minimal
  (`OptimalSol`).  Flows are `Nat`-valued because every variable is
  declared with `lowBound=0, cat="Integer"`.
* Result extraction (lines 115-126) reads `varValue or 0`, i.e. an unset
  (`None`) solver value becomes 0: solutions are `Var → Option ℚ` and
  extraction uses `Option.getD 0`.
-/

/-- A pandas DataFrame as a row-major rational matrix. -/
abbrev Mat : Type := List (List ℚ)

/-- Positional cell access, `df.iloc[i, j]`.  Out-of-range access defaults
to 0 (every access performed by the script on well-formed data is in
range). -/
def iloc (df : Mat) (i j : ℕ) : ℚ :=
  ((df.getD i []).getD j 0)

/-- The decision variables of the model: `inbound p d` is the PuLP variable
`I[p, d]` (units shipped plant `p` → DC `d`) and `outbound d s` is
`O[d, s]` (units shipped DC `d` → store `s`).  The script keys both
1-based. -/
inductive Var : Type
  | inbound (p d : ℕ)
  | outbound (d s : ℕ)
deriving DecidableEq, Repr

/-- A linear (affine) expression over the decision variables: a list of
(coefficient, variable) terms plus a constant. -/
structure AffExpr : Type where
  terms : List (ℚ × Var)
  const : ℚ
deriving DecidableEq, Repr

/-- Value of an affine expression under an assignment of rationals to
variables. -/
def AffExpr.eval (v : Var → ℚ) (e : AffExpr) : ℚ :=
  (e.terms.map (fun t => t.1 * v t.2)).sum + e.const

/-- Comparison sense of a PuLP constraint.  The script only ever writes
`>=` (line 104) and `==` (line 108). -/
inductive Sense : Type
  | le
  | ge
  | eq
deriving DecidableEq, Repr

/-- A linear constraint `lhs (sense) rhs`. -/
structure Constr : Type where
  lhs : AffExpr
  sense : Sense
  rhs : AffExpr
deriving DecidableEq, Repr

/-- A constraint holds under an assignment. -/
def Constr.holds (v : Var → ℚ) (c : Constr) : Prop :=
  match c.sense with
  | Sense.le => c.lhs.eval v ≤ c.rhs.eval v
  | Sense.ge => c.lhs.eval v ≥ c.rhs.eval v
  | Sense.eq => c.lhs.eval v = c.rhs.eval v

instance (v : Var → ℚ) (c : Constr) : Decidable (c.holds v) := by
  unfold Constr.holds
  match c.sense with
  | Sense.le => exact inferInstanceAs (Decidable (_ ≤ _))
  | Sense.ge => exact inferInstanceAs (Decidable (_ ≥ _))
  | Sense.eq => exact inferInstanceAs (Decidable (_ = _))

/-- A PuLP minimization model: objective expression and constraint list. -/
structure LpModel : Type where
  objective : AffExpr
  constraints : List Constr
deriving DecidableEq, Repr

/-- Cost of shipping one unit from plant `p` to DC `d`: the script reads
`df_inbound.iloc[i, j+1]` (line 88). -/
def inboundCost (df_inbound : Mat) (p d : ℕ) : ℚ :=
  iloc df_inbound p (d + 1)

/-- Cost of shipping one unit from DC `d` to store `s`: the script reads
`df_outbound.iloc[i, j+1]` (line 94). -/
def outboundCost (df_outbound : Mat) (d s : ℕ) : ℚ :=
  iloc df_outbound d (s + 1)

/-- Demand of store `s`: the script reads `df_demand.iloc[j, 1]`
(line 104). -/
def demandAt (df_demand : Mat) (s : ℕ) : ℚ :=
  iloc df_demand s 1

/-- Objective of the model (lines 87-99): total inbound plus outbound
transportation cost, iterating plants before DCs and DCs before stores
exactly as the two list comprehensions do. -/
def objectiveExpr (df_inbound df_outbound : Mat) (n_plants n_dcs n_stores : ℕ) : AffExpr :=
  { terms :=
      ((List.range n_plants).flatMap fun i =>
        (List.range n_dcs).map fun j =>
          (inboundCost df_inbound i j, Var.inbound (i + 1) (j + 1)))
      ++ ((List.range n_dcs).flatMap fun i =>
        (List.range n_stores).map fun j =>
          (outboundCost df_outbound i j, Var.outbound (i + 1) (j + 1)))
    const := 0 }

/-- The demand-satisfaction constraint for store index `j` (line 104):
`lpSum([O[i+1, j+1] for i in range(n_dcs)]) >= df_demand.iloc[j, 1]`. -/
def demandConstr (df_demand : Mat) (n_dcs j : ℕ) : Constr :=
  { lhs := { terms := (List.range n_dcs).map fun i =>
               ((1 : ℚ), Var.outbound (i + 1) (j + 1))
             const := 0 }
    sense := Sense.ge
    rhs := { terms := [], const := demandAt df_demand j } }

/-- The flow-conservation constraint for DC index `dc` (lines 107-109):
`lpSum([I[i+1, dc+1] for i in range(n_plants)]) == lpSum([O[dc+1, j+1] for
j in range(n_stores)])`. -/
def conservationConstr (n_plants n_stores dc : ℕ) : Constr :=
  { lhs := { terms := (List.range n_plants).map fun i =>
               ((1 : ℚ), Var.inbound (i + 1) (dc + 1))
             const := 0 }
    sense := Sense.eq
    rhs := { terms := (List.range n_stores).map fun j =>
               ((1 : ℚ), Var.outbound (dc + 1) (j + 1))
             const := 0 } }

/-- The model assembled by `optimize_supply_planning` (lines 67-109):
objective, then the store-demand constraints, then the DC-conservation
constraints, in the order the script adds them. -/
def optModel (df_inbound df_outbound df_demand : Mat)
    (n_plants n_dcs n_stores : ℕ) : LpModel :=
  { objective := objectiveExpr df_inbound df_outbound n_plants n_dcs n_stores
    constraints :=
      ((List.range n_stores).map fun j => demandConstr df_demand n_dcs j)
      ++ ((List.range n_dcs).map fun dc => conservationConstr n_plants n_stores dc) }

/-- Solver statuses surfaced through `LpStatus` in PuLP. -/
inductive LpStatusT : Type
  | Optimal
  | Infeasible
  | Unbounded
  | NotSolved
  | Undefined
deriving DecidableEq, Repr

/-- What `model.solve()` leaves behind: a status and the per-variable
`varValue` (which a solver may leave unset, `none`). -/
structure SolveOutcome : Type where
  status : LpStatusT
  sol : Var → Option ℚ

/-- Result extraction for the inbound matrix (lines 115, 118-120): a dense
`n_plants × n_dcs` matrix whose `(i, j)` entry is `I[i+1, j+1].varValue or
0`. -/
def extract_inbound (sol : Var → Option ℚ) (n_plants n_dcs : ℕ) : Mat :=
  (List.range n_plants).map fun i =>
    (List.range n_dcs).map fun j =>
      (sol (Var.inbound (i + 1) (j + 1))).getD 0

/-- Result extraction for the outbound matrix (lines 116, 122-124): a dense
`n_dcs × n_stores` matrix whose `(i, j)` entry is `O[i+1, j+1].varValue or
0`. -/
def extract_outbound (sol : Var → Option ℚ) (n_dcs n_stores : ℕ) : Mat :=
  (List.range n_dcs).map fun i =>
    (List.range n_stores).map fun j =>
      (sol (Var.outbound (i + 1) (j + 1))).getD 0

/-- Lines 112-126 as one step: after `model.solve()` the script extracts
both flow matrices unconditionally — the solve status is never consulted
before or during extraction. -/
def extractResults (out : SolveOutcome) (n_plants n_dcs n_stores : ℕ) : Mat × Mat :=
  (extract_inbound out.sol n_plants n_dcs, extract_outbound out.sol n_dcs n_stores)

/-- `optimize_supply_planning` (lines 56-126), with the external solver
passed as an oracle: build the model, solve, extract, and return
`(model, inbound_flow, outbound_flow)`. -/
def optimize_supply_planning (solver : LpModel → SolveOutcome)
    (df_inbound df_outbound df_demand : Mat)
    (n_plants n_dcs n_stores : ℕ) : LpModel × Mat × Mat :=
  let m := optModel df_inbound df_outbound df_demand n_plants n_dcs n_stores
  let out := solver m
  (m, extract_inbound out.sol n_plants n_dcs, extract_outbound out.sol n_dcs n_stores)

/-- Default of the `n_plants` parameter (line 57). -/
def n_plants_default : ℕ := 2

/-- Default of the `n_dcs` parameter (line 57). -/
def n_dcs_default : ℕ := 2

/-- `optimize_supply_planning` invoked with all defaults: `n_plants=2`,
`n_dcs=2`, and `n_stores=None` resolved to `len(df_demand)`
(lines 63-64). -/
def optimize_supply_planning_defaults (solver : LpModel → SolveOutcome)
    (df_inbound df_outbound df_demand : Mat) : LpModel × Mat × Mat :=
  optimize_supply_planning solver df_inbound df_outbound df_demand
    n_plants_default n_dcs_default df_demand.length

/-- The call `main` makes (lines 189-192): `n_plants=2, n_dcs=2,
n_stores=len(df_demand)` (`main` sets `n_stores = len(df_demand)` on the
file path and 10 on the sample path, which is also the sample demand
length). -/
def main_optimize (solver : LpModel → SolveOutcome)
    (df_inbound df_outbound df_demand : Mat) : LpModel × Mat × Mat :=
  optimize_supply_planning solver df_inbound df_outbound df_demand
    2 2 df_demand.length

/-- Sum of all entries of a matrix (`numpy .sum()`). -/
def matSum (m : Mat) : ℚ :=
  (m.map fun row => row.sum).sum

/-- Sum of column `j` of a matrix (`m[:, j].sum()`). -/
def colSum (m : Mat) (j : ℕ) : ℚ :=
  (m.map fun row => row.getD j 0).sum

/-- Sum of row `i` of a matrix (`m[i, :].sum()`). -/
def rowSum (m : Mat) (i : ℕ) : ℚ :=
  ((m.getD i []).sum)

/-- What `display_results` (lines 129-166) prints, as data: the status, the
objective value, the inbound flow table, per-DC throughput, per-DC shipped
totals and stores-served counts, total demand (sum of the whole demand
column, line 161), total shipped (line 162) and the fill rate, computed as
`total_shipped/total_demand` with no guard on the divisor (line 166). -/
structure Report : Type where
  status : LpStatusT
  totalCost : ℚ
  inboundTable : Mat
  dcThroughput : List ℚ
  shippedPerDC : List ℚ
  storesServedPerDC : List ℕ
  totalDemand : ℚ
  totalShipped : ℚ
  fillRate : ℚ

/-- The `display_results` function (lines 129-166) as a pure function from
its four arguments to the data it reports.  It branches on nothing: every
field, the flow table included, is produced for every status. -/
def display_results (status : LpStatusT) (objVal : ℚ)
    (inbound_flow outbound_flow : Mat) (df_demand : Mat) : Report :=
  { status := status
    totalCost := objVal
    inboundTable := inbound_flow
    dcThroughput := (List.range (inbound_flow.getD 0 []).length).map fun j =>
      colSum inbound_flow j
    shippedPerDC := (List.range outbound_flow.length).map fun i =>
      rowSum outbound_flow i
    storesServedPerDC := (List.range outbound_flow.length).map fun i =>
      ((outbound_flow.getD i []).filter fun x => decide (0 < x)).length
    totalDemand := ((List.range df_demand.length).map fun j => iloc df_demand j 1).sum
    totalShipped := matSum outbound_flow
    fillRate := matSum outbound_flow
      / ((List.range df_demand.length).map fun j => iloc df_demand j 1).sum }

/-- An integer, nonnegative assignment of flows: every PuLP variable has
`lowBound=0, cat="Integer"`, so admissible solver values are naturals. -/
def castAsg (v : Var → ℕ) : Var → ℚ :=
  fun x => ((v x : ℚ))

/-- Feasibility of an integer assignment: every constraint of the model
holds. -/
def FeasibleN (m : LpModel) (v : Var → ℕ) : Prop :=
  ∀ c ∈ m.constraints, c.holds (castAsg v)

/-- Objective value of an integer assignment. -/
def objEval (m : LpModel) (v : Var → ℕ) : ℚ :=
  m.objective.eval (castAsg v)

/-- Abstract model of the external solver reporting `Optimal`: the
assignment is feasible and no feasible integer assignment has a smaller
objective. -/
def OptimalSol (m : LpModel) (v : Var → ℕ) : Prop :=
  FeasibleN m v ∧ ∀ w : Var → ℕ, FeasibleN m w → objEval m v ≤ objEval m w

/-- The all-zero assignment. -/
def zeroAsg : Var → ℕ := fun _ => 0

/-- The total transportation cost recomputed independently from two flow
matrices, as `Σ inboundCost[p][d]·inF[p][d] + Σ outboundCost[d][s]·outF[d][s]`. -/
def recomputedCost (df_inbound df_outbound : Mat) (inF outF : Mat)
    (n_plants n_dcs n_stores : ℕ) : ℚ :=
  (∑ p in Finset.range n_plants, ∑ d in Finset.range n_dcs,
      inboundCost df_inbound p d * iloc inF p d)
  + ∑ d in Finset.range n_dcs, ∑ s in Finset.range n_stores,
      outboundCost df_outbound d s * iloc outF d s

/-- The all-zero flow matrix of a given shape. -/
def zeroMat (r c : ℕ) : Mat :=
  (List.range r).map fun _ => (List.range c).map fun _ => (0 : ℚ)

/-- The assignment obtained from `v` by shipping one unit less from DC
`d0` to store `s0` and one unit less from plant `p0` to DC `d0`. -/
def decAsg (v : Var → ℕ) (p0 d0 s0 : ℕ) (x : Var) : ℕ :=
  if x = Var.outbound (d0 + 1) (s0 + 1) then v x - 1
  else if x = Var.inbound (p0 + 1) (d0 + 1) then v x - 1
  else v x

/- ### List-sum helper lemmas -/

theorem sum_map_range (n : ℕ) (f : ℕ → ℚ) :
    ((List.range n).map f).sum = ∑ i in Finset.range n, f i := by
  induction n with
  | zero => simp
  | succ n ih => rw [List.range_succ, Finset.sum_range_succ]; simp [ih]

theorem sum_flatMap_range (m n : ℕ) (f : ℕ → ℕ → ℚ) :
    (((List.range m).flatMap fun i => (List.range n).map fun j => f i j)).sum
      = ∑ i in Finset.range m, ∑ j in Finset.range n, f i j := by
  induction m with
  | zero => simp
  | succ m ih =>
      rw [List.range_succ, List.flatMap_append, List.sum_append,
        Finset.sum_range_succ, ih]
      simp [sum_map_range]

theorem getD_map_range {α : Type} (n j : ℕ) (hj : j < n)
    (f : ℕ → α) (d : α) : ((List.range n).map f).getD j d = f j := by
  rw [List.getD_eq_getElem?_getD, List.getElem?_map, List.getElem?_range hj]
  rfl

/- ### Evaluation of the assembled model -/

theorem demandConstr_eval (df_demand : Mat) (n_dcs j : ℕ) (v : Var → ℚ) :
    (demandConstr df_demand n_dcs j).holds v ↔
      demandAt df_demand j ≤ ∑ i in Finset.range n_dcs, v (Var.outbound (i + 1) (j + 1)) := by
  unfold demandConstr Constr.holds AffExpr.eval
  simp [List.map_map, Function.comp, sum_map_range, ge_iff_le]

theorem conservationConstr_eval (n_plants n_stores dc : ℕ) (v : Var → ℚ) :
    (conservationConstr n_plants n_stores dc).holds v ↔
      ∑ i in Finset.range n_plants, v (Var.inbound (i + 1) (dc + 1))
        = ∑ j in Finset.range n_stores, v (Var.outbound (dc + 1) (j + 1)) := by
  unfold conservationConstr Constr.holds AffExpr.eval
  simp [List.map_map, Function.comp, sum_map_range]

theorem objectiveExpr_eval (df_inbound df_outbound : Mat)
    (n_plants n_dcs n_stores : ℕ) (v : Var → ℚ) :
    (objectiveExpr df_inbound df_outbound n_plants n_dcs n_stores).eval v
      = (∑ p in Finset.range n_plants, ∑ d in Finset.range n_dcs,
          inboundCost df_inbound p d * v (Var.inbound (p + 1) (d + 1)))
        + ∑ d in Finset.range n_dcs, ∑ s in Finset.range n_stores,
            outboundCost df_outbound d s * v (Var.outbound (d + 1) (s + 1)) := by
  unfold objectiveExpr AffExpr.eval
  rw [List.map_append, List.sum_append]
  rw [List.map_flatMap, List.map_flatMap]
  simp only [List.map_map, Function.comp]
  rw [sum_flatMap_range, sum_flatMap_range]
  simp

/-- Feasibility for the assembled model, characterized semantically:
demand satisfaction at every store index and flow conservation at every DC
index. -/
theorem feasibleN_optModel_iff (df_inbound df_outbound df_demand : Mat)
    (n_plants n_dcs n_stores : ℕ) (v : Var → ℕ) :
    FeasibleN (optModel df_inbound df_outbound df_demand n_plants n_dcs n_stores) v ↔
      (∀ j < n_stores, demandAt df_demand j ≤
          ∑ i in Finset.range n_dcs, ((v (Var.outbound (i + 1) (j + 1)) : ℚ)))
      ∧ (∀ dc < n_dcs,
          ∑ i in Finset.range n_plants, v (Var.inbound (i + 1) (dc + 1))
            = ∑ j in Finset.range n_stores, v (Var.outbound (dc + 1) (j + 1))) := by
  unfold FeasibleN optModel
  constructor
  · intro h
    constructor
    · intro j hj
      have hmem : demandConstr df_demand n_dcs j ∈
          ((List.range n_stores).map fun j => demandConstr df_demand n_dcs j)
          ++ ((List.range n_dcs).map fun dc => conservationConstr n_plants n_stores dc) := by
        apply List.mem_append_left
        exact List.mem_map_of_mem _ (List.mem_range.mpr hj)
      have := h _ hmem
      rw [demandConstr_eval] at this
      exact this
    · intro dc hdc
      have hmem : conservationConstr n_plants n_stores dc ∈
          ((List.range n_stores).map fun j => demandConstr df_demand n_dcs j)
          ++ ((List.range n_dcs).map fun dc => conservationConstr n_plants n_stores dc) := by
        apply List.mem_append_right
        exact List.mem_map_of_mem _ (List.mem_range.mpr hdc)
      have := h _ hmem
      rw [conservationConstr_eval] at this
      simp only [castAsg] at this
      exact_mod_cast this
  · rintro ⟨hdem, hcons⟩ c hc
    rcases List.mem_append.mp hc with hc | hc
    · rcases List.mem_map.mp hc with ⟨j, hj, rfl⟩
      rw [demandConstr_eval]
      exact hdem j (List.mem_range.mp hj)
    · rcases List.mem_map.mp hc with ⟨dc, hdc, rfl⟩
      rw [conservationConstr_eval]
      simp only [castAsg]
      exact_mod_cast hcons dc (List.mem_range.mp hdc)

/-- Objective of the assembled model at an integer assignment. -/
theorem objEval_optModel (df_inbound df_outbound df_demand : Mat)
    (n_plants n_dcs n_stores : ℕ) (v : Var → ℕ) :
    objEval (optModel df_inbound df_outbound df_demand n_plants n_dcs n_stores) v
      = (∑ p in Finset.range n_plants, ∑ d in Finset.range n_dcs,
          inboundCost df_inbound p d * ((v (Var.inbound (p + 1) (d + 1)) : ℚ)))
        + ∑ d in Finset.range n_dcs, ∑ s in Finset.range n_stores,
            outboundCost df_outbound d s * ((v (Var.outbound (d + 1) (s + 1)) : ℚ)) := by
  unfold objEval optModel
  exact objectiveExpr_eval _ _ _ _ _ _

/- ### Extraction entry and aggregate lemmas -/

theorem extract_inbound_entry (sol : Var → Option ℚ) (n_plants n_dcs p d : ℕ)
    (hp : p < n_plants) (hd : d < n_dcs) :
    iloc (extract_inbound sol n_plants n_dcs) p d
      = (sol (Var.inbound (p + 1) (d + 1))).getD 0 := by
  unfold iloc extract_inbound
  rw [getD_map_range n_plants p hp _ []]
  exact getD_map_range n_dcs d hd _ 0

theorem extract_outbound_entry (sol : Var → Option ℚ) (n_dcs n_stores d s : ℕ)
    (hd : d < n_dcs) (hs : s < n_stores) :
    iloc (extract_outbound sol n_dcs n_stores) d s
      = (sol (Var.outbound (d + 1) (s + 1))).getD 0 := by
  unfold iloc extract_outbound
  rw [getD_map_range n_dcs d hd _ []]
  exact getD_map_range n_stores s hs _ 0

theorem colSum_extract_inbound (sol : Var → Option ℚ) (n_plants n_dcs d : ℕ)
    (hd : d < n_dcs) :
    colSum (extract_inbound sol n_plants n_dcs) d
      = ∑ i in Finset.range n_plants, (sol (Var.inbound (i + 1) (d + 1))).getD 0 := by
  unfold colSum extract_inbound
  rw [List.map_map]
  rw [← sum_map_range]
  apply congrArg
  apply List.map_congr_left
  intro i _
  exact getD_map_range _ _ hd _ _

theorem rowSum_extract_outbound (sol : Var → Option ℚ) (n_dcs n_stores d : ℕ)
    (hd : d < n_dcs) :
    rowSum (extract_outbound sol n_dcs n_stores) d
      = ∑ j in Finset.range n_stores, (sol (Var.outbound (d + 1) (j + 1))).getD 0 := by
  unfold rowSum extract_outbound
  rw [getD_map_range _ _ hd _ _]
  exact sum_map_range _ _

theorem matSum_extract_outbound (sol : Var → Option ℚ) (n_dcs n_stores : ℕ) :
    matSum (extract_outbound sol n_dcs n_stores)
      = ∑ d in Finset.range n_dcs, ∑ s in Finset.range n_stores,
          (sol (Var.outbound (d + 1) (s + 1))).getD 0 := by
  unfold matSum extract_outbound
  rw [List.map_map]
  rw [← sum_map_range]
  apply congrArg
  apply List.map_congr_left
  intro i _
  exact sum_map_range _ _

/- ### Claim C1 -/

/-- C1: For every store index `s < n_stores`, the model built by
`optimize_supply_planning` contains the demand-satisfaction constraint
`Σ_d O[d][s] ≥ demand[s]`: the greater-or-equal constraint whose left side
sums the outbound variables of store `s` over all DCs and whose right side
is the store's demand entry; it is an inequality, and no equality
constraint of the model bounds a store's demand (the only equality
constraints are the DC flow-conservation ones). -/
theorem demand_constraints_are_satisfy_or_exceed
    (df_inbound df_outbound df_demand : Mat) (n_plants n_dcs n_stores s : ℕ)
    (hs : s < n_stores) :
    (demandConstr df_demand n_dcs s ∈
        (optModel df_inbound df_outbound df_demand n_plants n_dcs n_stores).constraints)
    ∧ (demandConstr df_demand n_dcs s).sense = Sense.ge
    ∧ (∀ v : Var → ℚ, (demandConstr df_demand n_dcs s).holds v ↔
        demandAt df_demand s ≤
          ∑ i in Finset.range n_dcs, v (Var.outbound (i + 1) (s + 1)))
    ∧ (∀ c ∈ (optModel df_inbound df_outbound df_demand n_plants n_dcs n_stores).constraints,
        c.sense = Sense.eq → ∃ dc < n_dcs, c = conservationConstr n_plants n_stores dc) := by
  refine ⟨?_, rfl, fun v => demandConstr_eval df_demand n_dcs s v, ?_⟩
  · unfold optModel
    apply List.mem_append_left
    exact List.mem_map_of_mem _ (List.mem_range.mpr hs)
  · intro c hc hceq
    unfold optModel at hc
    rcases List.mem_append.mp hc with hc | hc
    · rcases List.mem_map.mp hc with ⟨j, _, rfl⟩
      exact absurd hceq (by simp [demandConstr])
    · rcases List.mem_map.mp hc with ⟨dc, hdc, rfl⟩
      exact ⟨dc, List.mem_range.mp hdc, rfl⟩

/-- Witness for C1 at a concrete one-plant, one-DC, one-store input. -/
theorem demand_constraints_are_satisfy_or_exceed_witness :
    (0 : ℕ) < 1 ∧
    ((demandConstr [[9, 5]] 1 0 ∈
        (optModel [[9, 1]] [[9, 1]] [[9, 5]] 1 1 1).constraints)
    ∧ (demandConstr [[9, 5]] 1 0).sense = Sense.ge
    ∧ (∀ v : Var → ℚ, (demandConstr [[9, 5]] 1 0).holds v ↔
        demandAt [[9, 5]] 0 ≤
          ∑ i in Finset.range 1, v (Var.outbound (i + 1) (0 + 1)))
    ∧ (∀ c ∈ (optModel [[9, 1]] [[9, 1]] [[9, 5]] 1 1 1).constraints,
        c.sense = Sense.eq → ∃ dc < 1, c = conservationConstr 1 1 dc)) :=
  ⟨by decide,
   demand_constraints_are_satisfy_or_exceed [[9, 1]] [[9, 1]] [[9, 5]] 1 1 1 0 (by decide)⟩

/- ### Claim C2 -/

/-- C2: For every DC index `d < n_dcs` the model contains the
flow-conservation equality constraint `Σ_p I[p][d] = Σ_s O[d][s]`, and in
any optimal solution the `d`-th column sum of the extracted inbound flow
matrix equals the `d`-th row sum of the extracted outbound flow matrix. -/
theorem conservation_constraints_balance_flows
    (df_inbound df_outbound df_demand : Mat) (n_plants n_dcs n_stores : ℕ)
    (v : Var → ℕ) (d : ℕ) (hd : d < n_dcs)
    (hv : OptimalSol (optModel df_inbound df_outbound df_demand n_plants n_dcs n_stores) v) :
    (conservationConstr n_plants n_stores d ∈
        (optModel df_inbound df_outbound df_demand n_plants n_dcs n_stores).constraints)
    ∧ (conservationConstr n_plants n_stores d).sense = Sense.eq
    ∧ (∀ w : Var → ℚ, (conservationConstr n_plants n_stores d).holds w ↔
        ∑ i in Finset.range n_plants, w (Var.inbound (i + 1) (d + 1))
          = ∑ j in Finset.range n_stores, w (Var.outbound (d + 1) (j + 1)))
    ∧ colSum (extract_inbound (fun x => some (castAsg v x)) n_plants n_dcs) d
        = rowSum (extract_outbound (fun x => some (castAsg v x)) n_dcs n_stores) d := by
  refine ⟨?_, rfl, fun w => conservationConstr_eval n_plants n_stores d w, ?_⟩
  · unfold optModel
    apply List.mem_append_right
    exact List.mem_map_of_mem _ (List.mem_range.mpr hd)
  · have hcons := ((feasibleN_optModel_iff df_inbound df_outbound df_demand
      n_plants n_dcs n_stores v).mp hv.1).2 d hd
    rw [colSum_extract_inbound _ _ _ _ hd, rowSum_extract_outbound _ _ _ _ hd]
    simp only [Option.getD_some, castAsg]
    exact_mod_cast hcons

/- ### Claim C3 -/

/-- C3: The objective of the model built by `optimize_supply_planning`
evaluates, under any assignment, to
`Σ_{p,d} inboundCost[p][d]·I[p][d] + Σ_{d,s} outboundCost[d][s]·O[d][s]`,
where the cost coefficients are the entries of the inbound and outbound
cost tables for plant `p` / DC `d` / store `s` (the cells the script reads
at lines 88 and 94); and the solver-reported objective value (PuLP's
`value(model.objective)`, i.e. the objective evaluated at the solution)
equals the same cost recomputed independently from the extracted flow
matrices. -/
theorem objective_equals_total_transportation_cost
    (df_inbound df_outbound df_demand : Mat) (n_plants n_dcs n_stores : ℕ)
    (v : Var → ℚ) :
    ((optModel df_inbound df_outbound df_demand n_plants n_dcs n_stores).objective.eval v
      = (∑ p in Finset.range n_plants, ∑ d in Finset.range n_dcs,
          inboundCost df_inbound p d * v (Var.inbound (p + 1) (d + 1)))
        + ∑ d in Finset.range n_dcs, ∑ s in Finset.range n_stores,
            outboundCost df_outbound d s * v (Var.outbound (d + 1) (s + 1)))
    ∧ recomputedCost df_inbound df_outbound
        (extract_inbound (fun x => some (v x)) n_plants n_dcs)
        (extract_outbound (fun x => some (v x)) n_dcs n_stores)
        n_plants n_dcs n_stores
      = (optModel df_inbound df_outbound df_demand n_plants n_dcs n_stores).objective.eval v := by
  have hobj := objectiveExpr_eval df_inbound df_outbound n_plants n_dcs n_stores v
  have hproj : (optModel df_inbound df_outbound df_demand n_plants n_dcs n_stores).objective
      = objectiveExpr df_inbound df_outbound n_plants n_dcs n_stores := rfl
  refine ⟨hobj, ?_⟩
  rw [hproj, hobj]
  unfold recomputedCost
  congr 1
  · apply Finset.sum_congr rfl
    intro p hp
    apply Finset.sum_congr rfl
    intro d hd
    rw [extract_inbound_entry _ _ _ _ _ (List.mem_range.mp (by simpa using hp))
      (List.mem_range.mp (by simpa using hd))]
    simp
  · apply Finset.sum_congr rfl
    intro d hd
    apply Finset.sum_congr rfl
    intro s hs
    rw [extract_outbound_entry _ _ _ _ _ (List.mem_range.mp (by simpa using hd))
      (List.mem_range.mp (by simpa using hs))]
    simp

/- ### Claim C6 -/

/-- C6: Extraction reads every `I[p][d]` and `O[d][s]` variable into dense
matrices of shape `n_plants × n_dcs` and `n_dcs × n_stores`; the `(p,d)`
and `(d,s)` entries are the solver values of the corresponding variables,
and a variable whose solver value is unset (`none`) is recorded as 0. -/
theorem extraction_dense_with_null_as_zero
    (sol : Var → Option ℚ) (n_plants n_dcs n_stores p d d2 s : ℕ)
    (hp : p < n_plants) (hd : d < n_dcs) (hd2 : d2 < n_dcs) (hs : s < n_stores) :
    (extract_inbound sol n_plants n_dcs).length = n_plants
    ∧ (∀ row ∈ extract_inbound sol n_plants n_dcs, row.length = n_dcs)
    ∧ (extract_outbound sol n_dcs n_stores).length = n_dcs
    ∧ (∀ row ∈ extract_outbound sol n_dcs n_stores, row.length = n_stores)
    ∧ iloc (extract_inbound sol n_plants n_dcs) p d
        = (sol (Var.inbound (p + 1) (d + 1))).getD 0
    ∧ iloc (extract_outbound sol n_dcs n_stores) d2 s
        = (sol (Var.outbound (d2 + 1) (s + 1))).getD 0
    ∧ (sol (Var.inbound (p + 1) (d + 1)) = none →
        iloc (extract_inbound sol n_plants n_dcs) p d = 0)
    ∧ (sol (Var.outbound (d2 + 1) (s + 1)) = none →
        iloc (extract_outbound sol n_dcs n_stores) d2 s = 0) := by
  have hin := extract_inbound_entry sol n_plants n_dcs p d hp hd
  have hout := extract_outbound_entry sol n_dcs n_stores d2 s hd2 hs
  refine ⟨by simp [extract_inbound], ?_, by simp [extract_outbound], ?_, hin, hout, ?_, ?_⟩
  · intro row hrow
    rcases List.mem_map.mp hrow with ⟨i, _, rfl⟩
    simp
  · intro row hrow
    rcases List.mem_map.mp hrow with ⟨i, _, rfl⟩
    simp
  · intro hnone
    rw [hin, hnone]
    rfl
  · intro hnone
    rw [hout, hnone]
    rfl

/-- Witness for C6 at a concrete shape with an everywhere-unset solution. -/
theorem extraction_dense_with_null_as_zero_witness :
    (0 : ℕ) < 1 ∧
    ((extract_inbound (fun _ => none) 1 1).length = 1
    ∧ (∀ row ∈ extract_inbound (fun _ => (none : Option ℚ)) 1 1, row.length = 1)
    ∧ (extract_outbound (fun _ => none) 1 1).length = 1
    ∧ (∀ row ∈ extract_outbound (fun _ => (none : Option ℚ)) 1 1, row.length = 1)
    ∧ iloc (extract_inbound (fun _ => none) 1 1) 0 0
        = ((fun _ => (none : Option ℚ)) (Var.inbound (0 + 1) (0 + 1))).getD 0
    ∧ iloc (extract_outbound (fun _ => none) 1 1) 0 0
        = ((fun _ => (none : Option ℚ)) (Var.outbound (0 + 1) (0 + 1))).getD 0
    ∧ ((fun _ => (none : Option ℚ)) (Var.inbound (0 + 1) (0 + 1)) = none →
        iloc (extract_inbound (fun _ => none) 1 1) 0 0 = 0)
    ∧ ((fun _ => (none : Option ℚ)) (Var.outbound (0 + 1) (0 + 1)) = none →
        iloc (extract_outbound (fun _ => none) 1 1) 0 0 = 0)) :=
  ⟨by decide,
   extraction_dense_with_null_as_zero (fun _ => none) 1 1 1 0 0 0 0
     (by decide) (by decide) (by decide) (by decide)⟩

/- ### Claim C4 -/

/-- C4 counterexample: with a negative demand entry (−1) the script raises
nothing — `optimize_supply_planning` has no validation code at all, so the
model is assembled and handed to the solver with the negative bound
embedded verbatim in the demand constraint.  There is no `InvalidValue`
error anywhere in the source. -/
theorem negative_demand_is_not_rejected :
    demandAt [[0, -1]] 0 = -1
    ∧ demandAt [[0, -1]] 0 < 0
    ∧ (optModel [[0, 1]] [[0, 1]] [[0, -1]] 1 1 1).constraints
      = [ { lhs := { terms := [((1 : ℚ), Var.outbound 1 1)], const := 0 }
            sense := Sense.ge
            rhs := { terms := [], const := -1 } },
          { lhs := { terms := [((1 : ℚ), Var.inbound 1 1)], const := 0 }
            sense := Sense.eq
            rhs := { terms := [((1 : ℚ), Var.outbound 1 1)], const := 0 } } ] := by
  refine ⟨by decide, by decide, ?_⟩
  decide

/-- C4 amended: `optimize_supply_planning` performs no input validation:
there is no `InvalidValue` error, model assembly is total, and negative
cost or demand entries pass into the model verbatim — a negative demand
entry becomes the (negative) right-hand constant of that store's demand
constraint, and a negative inbound cost entry becomes the objective
coefficient of the corresponding inbound variable; the solve then proceeds
on that model. -/
theorem negative_entries_pass_into_model
    (df_inbound df_outbound df_demand : Mat) (n_plants n_dcs n_stores j p d : ℕ)
    (hj : j < n_stores) (hp : p < n_plants) (hd : d < n_dcs)
    (hnegdem : demandAt df_demand j < 0)
    (hnegcost : inboundCost df_inbound p d < 0) :
    (demandConstr df_demand n_dcs j ∈
        (optModel df_inbound df_outbound df_demand n_plants n_dcs n_stores).constraints)
    ∧ (demandConstr df_demand n_dcs j).rhs.const = demandAt df_demand j
    ∧ (demandConstr df_demand n_dcs j).rhs.const < 0
    ∧ inboundCost df_inbound p d < 0
    ∧ ((inboundCost df_inbound p d, Var.inbound (p + 1) (d + 1)) ∈
        (optModel df_inbound df_outbound df_demand n_plants n_dcs n_stores).objective.terms) := by
  refine ⟨?_, rfl, hnegdem, hnegcost, ?_⟩
  · unfold optModel
    apply List.mem_append_left
    exact List.mem_map_of_mem _ (List.mem_range.mpr hj)
  · show _ ∈ (objectiveExpr df_inbound df_outbound n_plants n_dcs n_stores).terms
    unfold objectiveExpr
    apply List.mem_append_left
    apply List.mem_flatMap.mpr
    exact ⟨p, List.mem_range.mpr hp,
      List.mem_map.mpr ⟨d, List.mem_range.mpr hd, rfl⟩⟩

/-- Witness for the amended C4 at a concrete input with demand −1 and
inbound cost −2. -/
theorem negative_entries_pass_into_model_witness :
    demandAt [[0, -1]] 0 < 0 ∧ inboundCost [[0, -2]] 0 0 < 0 ∧
    ((demandConstr [[0, -1]] 1 0 ∈
        (optModel [[0, -2]] [[0, 1]] [[0, -1]] 1 1 1).constraints)
    ∧ (demandConstr [[0, -1]] 1 0).rhs.const = demandAt [[0, -1]] 0
    ∧ (demandConstr [[0, -1]] 1 0).rhs.const < 0
    ∧ inboundCost [[0, -2]] 0 0 < 0
    ∧ ((inboundCost [[0, -2]] 0 0, Var.inbound (0 + 1) (0 + 1)) ∈
        (optModel [[0, -2]] [[0, 1]] [[0, -1]] 1 1 1).objective.terms)) :=
  ⟨by decide, by decide,
   negative_entries_pass_into_model [[0, -2]] [[0, 1]] [[0, -1]] 1 1 1 0 0 0
     (by decide) (by decide) (by decide) (by decide) (by decide)⟩

/- ### Claim C5 -/

/-- C5 counterexample: invoked on an outcome whose status is `Infeasible`
with every variable unset, extraction does not fail — it returns dense
zero-filled flow tables (here 2×2 and 2×3), exactly what the claim says is
never reported.  No `ExtractionError` exists in the source, and the status
is never consulted. -/
theorem extraction_on_infeasible_returns_zero_tables :
    extractResults { status := LpStatusT.Infeasible, sol := fun _ => none } 2 2 3
      = ([[0, 0], [0, 0]], [[0, 0, 0], [0, 0, 0]]) := by
  decide

/-- C5 amended: result extraction is performed unconditionally after
`model.solve()` and never fails: it ignores the solve status entirely
(the extracted matrices are the same for any two statuses over the same
solver values, unset values read as 0), and `display_results` reports the
status together with the flow table and shipped totals for every outcome,
optimal or not — a non-optimal outcome is thus reported with a
default-filled flow table rather than with no flow data. -/
theorem extraction_ignores_solve_status
    (st st' : LpStatusT) (sol : Var → Option ℚ) (objVal : ℚ)
    (n_plants n_dcs n_stores : ℕ) (inbound_flow outbound_flow df_demand : Mat) :
    extractResults { status := st, sol := sol } n_plants n_dcs n_stores
      = extractResults { status := st', sol := sol } n_plants n_dcs n_stores
    ∧ (display_results st objVal inbound_flow outbound_flow df_demand).status = st
    ∧ (display_results st objVal inbound_flow outbound_flow df_demand).inboundTable
        = inbound_flow
    ∧ (display_results st objVal inbound_flow outbound_flow df_demand).totalShipped
        = matSum outbound_flow :=
  ⟨rfl, rfl, rfl, rfl⟩

/- ### Claim C10 -/

theorem getD_eq_of_take_eq {α : Type} (l l' : List α) (n i : ℕ) (hi : i < n)
    (h : l.take n = l'.take n) (d : α) : l.getD i d = l'.getD i d := by
  have h1 : (l.take n)[i]? = l[i]? := by rw [List.getElem?_take]; simp [hi]
  have h2 : (l'.take n)[i]? = l'[i]? := by rw [List.getElem?_take]; simp [hi]
  rw [List.getD_eq_getElem?_getD, List.getD_eq_getElem?_getD, ← h1, ← h2, h]

theorem flatMap_congr_range {α : Type} (n : ℕ) (f g : ℕ → List α)
    (h : ∀ i < n, f i = g i) :
    (List.range n).flatMap f = (List.range n).flatMap g := by
  induction n with
  | zero => rfl
  | succ n ih =>
      rw [List.range_succ, List.flatMap_append, List.flatMap_append,
        ih (fun i hi => h i (Nat.lt_succ_of_lt hi))]
      simp [h n (Nat.lt_succ_self n)]

/-- Rows of the cost tables beyond the first `n_plants` (resp. `n_dcs`) are
never read by model assembly: two inputs agreeing on those leading rows
yield literally the same model. -/
theorem optModel_ignores_extra_rows
    (df_inbound df_inbound' df_outbound df_outbound' df_demand : Mat)
    (n_plants n_dcs n_stores : ℕ)
    (hi : df_inbound.take n_plants = df_inbound'.take n_plants)
    (ho : df_outbound.take n_dcs = df_outbound'.take n_dcs) :
    optModel df_inbound df_outbound df_demand n_plants n_dcs n_stores
      = optModel df_inbound' df_outbound' df_demand n_plants n_dcs n_stores := by
  have hic : ∀ i < n_plants, ∀ j, inboundCost df_inbound i j = inboundCost df_inbound' i j := by
    intro i hiP j
    unfold inboundCost iloc
    rw [getD_eq_of_take_eq df_inbound df_inbound' n_plants i hiP hi]
  have hoc : ∀ i < n_dcs, ∀ j, outboundCost df_outbound i j = outboundCost df_outbound' i j := by
    intro i hiD j
    unfold outboundCost iloc
    rw [getD_eq_of_take_eq df_outbound df_outbound' n_dcs i hiD ho]
  have h1 : ((List.range n_plants).flatMap fun i =>
        (List.range n_dcs).map fun j =>
          (inboundCost df_inbound i j, Var.inbound (i + 1) (j + 1)))
      = (List.range n_plants).flatMap fun i =>
        (List.range n_dcs).map fun j =>
          (inboundCost df_inbound' i j, Var.inbound (i + 1) (j + 1)) := by
    apply flatMap_congr_range
    intro i hiP
    exact List.map_congr_left fun j _ => by rw [hic i hiP j]
  have h2 : ((List.range n_dcs).flatMap fun i =>
        (List.range n_stores).map fun j =>
          (outboundCost df_outbound i j, Var.outbound (i + 1) (j + 1)))
      = (List.range n_dcs).flatMap fun i =>
        (List.range n_stores).map fun j =>
          (outboundCost df_outbound' i j, Var.outbound (i + 1) (j + 1)) := by
    apply flatMap_congr_range
    intro i hiD
    exact List.map_congr_left fun j _ => by rw [hoc i hiD j]
  unfold optModel objectiveExpr
  rw [h1, h2]

/-- C10: The plant and DC counts are fixed by parameter defaults, not
inferred from the cost tables: the defaults are `n_plants=2` and
`n_dcs=2`, `main` invokes the optimization with exactly these values, the
resolved `n_stores` is the demand table's length, and any rows of the cost
tables beyond the second are silently ignored — the whole result of
`optimize_supply_planning` under defaults is unchanged when those rows
change. -/
theorem plant_and_dc_counts_fixed_by_defaults
    (solver : LpModel → SolveOutcome)
    (df_inbound df_inbound' df_outbound df_outbound' df_demand : Mat)
    (hi : df_inbound.take 2 = df_inbound'.take 2)
    (ho : df_outbound.take 2 = df_outbound'.take 2) :
    n_plants_default = 2 ∧ n_dcs_default = 2
    ∧ optimize_supply_planning_defaults solver df_inbound df_outbound df_demand
        = optimize_supply_planning solver df_inbound df_outbound df_demand
            2 2 df_demand.length
    ∧ main_optimize solver df_inbound df_outbound df_demand
        = optimize_supply_planning solver df_inbound df_outbound df_demand
            2 2 df_demand.length
    ∧ optimize_supply_planning_defaults solver df_inbound df_outbound df_demand
        = optimize_supply_planning_defaults solver df_inbound' df_outbound' df_demand := by
  refine ⟨rfl, rfl, rfl, rfl, ?_⟩
  unfold optimize_supply_planning_defaults optimize_supply_planning
  rw [optModel_ignores_extra_rows df_inbound df_inbound' df_outbound df_outbound'
    df_demand n_plants_default n_dcs_default df_demand.length hi ho]

/-- Witness for C10: three-row cost tables differing only in the third row
produce identical results under the default plant/DC counts. -/
theorem plant_and_dc_counts_fixed_by_defaults_witness :
    ([[1, 2], [3, 4], [5, 6]] : Mat).take 2 = ([[1, 2], [3, 4], [7, 8]] : Mat).take 2
    ∧ ([[1, 1], [2, 2], [3, 3]] : Mat).take 2 = ([[1, 1], [2, 2], [9, 9]] : Mat).take 2
    ∧ (n_plants_default = 2 ∧ n_dcs_default = 2
    ∧ optimize_supply_planning_defaults
        (fun _ => { status := LpStatusT.NotSolved, sol := fun _ => none })
        [[1, 2], [3, 4], [5, 6]] [[1, 1], [2, 2], [3, 3]] [[1, 5]]
        = optimize_supply_planning
            (fun _ => { status := LpStatusT.NotSolved, sol := fun _ => none })
            [[1, 2], [3, 4], [5, 6]] [[1, 1], [2, 2], [3, 3]] [[1, 5]]
            2 2 ([[1, 5]] : Mat).length
    ∧ main_optimize
        (fun _ => { status := LpStatusT.NotSolved, sol := fun _ => none })
        [[1, 2], [3, 4], [5, 6]] [[1, 1], [2, 2], [3, 3]] [[1, 5]]
        = optimize_supply_planning
            (fun _ => { status := LpStatusT.NotSolved, sol := fun _ => none })
            [[1, 2], [3, 4], [5, 6]] [[1, 1], [2, 2], [3, 3]] [[1, 5]]
            2 2 ([[1, 5]] : Mat).length
    ∧ optimize_supply_planning_defaults
        (fun _ => { status := LpStatusT.NotSolved, sol := fun _ => none })
        [[1, 2], [3, 4], [5, 6]] [[1, 1], [2, 2], [3, 3]] [[1, 5]]
        = optimize_supply_planning_defaults
            (fun _ => { status := LpStatusT.NotSolved, sol := fun _ => none })
            [[1, 2], [3, 4], [7, 8]] [[1, 1], [2, 2], [9, 9]] [[1, 5]]) :=
  ⟨by decide, by decide,
   plant_and_dc_counts_fixed_by_defaults
     (fun _ => { status := LpStatusT.NotSolved, sol := fun _ => none })
     [[1, 2], [3, 4], [5, 6]] [[1, 2], [3, 4], [7, 8]]
     [[1, 1], [2, 2], [3, 3]] [[1, 1], [2, 2], [9, 9]] [[1, 5]]
     (by decide) (by decide)⟩

/- ### Optimality helper lemmas -/

theorem objEval_optModel_nonneg
    (df_inbound df_outbound df_demand : Mat) (n_plants n_dcs n_stores : ℕ)
    (hcin : ∀ p < n_plants, ∀ d < n_dcs, 0 ≤ inboundCost df_inbound p d)
    (hcout : ∀ d < n_dcs, ∀ s < n_stores, 0 ≤ outboundCost df_outbound d s)
    (w : Var → ℕ) :
    0 ≤ objEval (optModel df_inbound df_outbound df_demand n_plants n_dcs n_stores) w := by
  rw [objEval_optModel]
  apply add_nonneg
  · apply Finset.sum_nonneg
    intro p hp
    apply Finset.sum_nonneg
    intro d hd
    exact mul_nonneg (hcin p (List.mem_range.mp (by simpa using hp))
      d (List.mem_range.mp (by simpa using hd))) (by positivity)
  · apply Finset.sum_nonneg
    intro d hd
    apply Finset.sum_nonneg
    intro s hs
    exact mul_nonneg (hcout d (List.mem_range.mp (by simpa using hd))
      s (List.mem_range.mp (by simpa using hs))) (by positivity)

theorem zeroAsg_feasible
    (df_inbound df_outbound df_demand : Mat) (n_plants n_dcs n_stores : ℕ)
    (hdem : ∀ j < n_stores, demandAt df_demand j ≤ 0) :
    FeasibleN (optModel df_inbound df_outbound df_demand n_plants n_dcs n_stores) zeroAsg := by
  rw [feasibleN_optModel_iff]
  constructor
  · intro j hj
    simpa [zeroAsg] using hdem j hj
  · intro dc _
    simp [zeroAsg]

theorem objEval_zeroAsg
    (df_inbound df_outbound df_demand : Mat) (n_plants n_dcs n_stores : ℕ) :
    objEval (optModel df_inbound df_outbound df_demand n_plants n_dcs n_stores) zeroAsg = 0 := by
  rw [objEval_optModel]
  simp [zeroAsg]

theorem zeroAsg_optimal
    (df_inbound df_outbound df_demand : Mat) (n_plants n_dcs n_stores : ℕ)
    (hdem : ∀ j < n_stores, demandAt df_demand j ≤ 0)
    (hcin : ∀ p < n_plants, ∀ d < n_dcs, 0 ≤ inboundCost df_inbound p d)
    (hcout : ∀ d < n_dcs, ∀ s < n_stores, 0 ≤ outboundCost df_outbound d s) :
    OptimalSol (optModel df_inbound df_outbound df_demand n_plants n_dcs n_stores) zeroAsg := by
  refine ⟨zeroAsg_feasible df_inbound df_outbound df_demand n_plants n_dcs n_stores hdem, ?_⟩
  intro w _
  rw [objEval_zeroAsg]
  exact objEval_optModel_nonneg df_inbound df_outbound df_demand
    n_plants n_dcs n_stores hcin hcout w

theorem optimal_objective_zero
    (df_inbound df_outbound df_demand : Mat) (n_plants n_dcs n_stores : ℕ)
    (hdem : ∀ j < n_stores, demandAt df_demand j ≤ 0)
    (hcin : ∀ p < n_plants, ∀ d < n_dcs, 0 ≤ inboundCost df_inbound p d)
    (hcout : ∀ d < n_dcs, ∀ s < n_stores, 0 ≤ outboundCost df_outbound d s)
    (v : Var → ℕ)
    (hv : OptimalSol (optModel df_inbound df_outbound df_demand n_plants n_dcs n_stores) v) :
    objEval (optModel df_inbound df_outbound df_demand n_plants n_dcs n_stores) v = 0 := by
  apply le_antisymm
  · have := hv.2 zeroAsg
      (zeroAsg_feasible df_inbound df_outbound df_demand n_plants n_dcs n_stores hdem)
    rwa [objEval_zeroAsg] at this
  · exact objEval_optModel_nonneg df_inbound df_outbound df_demand
      n_plants n_dcs n_stores hcin hcout v

theorem optimal_flows_zero_of_pos_costs
    (df_inbound df_outbound df_demand : Mat) (n_plants n_dcs n_stores : ℕ)
    (hdem : ∀ j < n_stores, demandAt df_demand j ≤ 0)
    (hcin : ∀ p < n_plants, ∀ d < n_dcs, 0 < inboundCost df_inbound p d)
    (hcout : ∀ d < n_dcs, ∀ s < n_stores, 0 < outboundCost df_outbound d s)
    (v : Var → ℕ)
    (hv : OptimalSol (optModel df_inbound df_outbound df_demand n_plants n_dcs n_stores) v) :
    (∀ p < n_plants, ∀ d < n_dcs, v (Var.inbound (p + 1) (d + 1)) = 0)
    ∧ (∀ d < n_dcs, ∀ s < n_stores, v (Var.outbound (d + 1) (s + 1)) = 0) := by
  have hobj0 := optimal_objective_zero df_inbound df_outbound df_demand
    n_plants n_dcs n_stores hdem
    (fun p hp d hd => (hcin p hp d hd).le) (fun d hd s hs => (hcout d hd s hs).le) v hv
  rw [objEval_optModel] at hobj0
  have hS1 : 0 ≤ ∑ p in Finset.range n_plants, ∑ d in Finset.range n_dcs,
      inboundCost df_inbound p d * ((v (Var.inbound (p + 1) (d + 1)) : ℚ)) := by
    apply Finset.sum_nonneg
    intro p hp
    apply Finset.sum_nonneg
    intro d hd
    exact mul_nonneg (hcin p (List.mem_range.mp (by simpa using hp))
      d (List.mem_range.mp (by simpa using hd))).le (by positivity)
  have hS2 : 0 ≤ ∑ d in Finset.range n_dcs, ∑ s in Finset.range n_stores,
      outboundCost df_outbound d s * ((v (Var.outbound (d + 1) (s + 1)) : ℚ)) := by
    apply Finset.sum_nonneg
    intro d hd
    apply Finset.sum_nonneg
    intro s hs
    exact mul_nonneg (hcout d (List.mem_range.mp (by simpa using hd))
      s (List.mem_range.mp (by simpa using hs))).le (by positivity)
  have h1 : ∑ p in Finset.range n_plants, ∑ d in Finset.range n_dcs,
      inboundCost df_inbound p d * ((v (Var.inbound (p + 1) (d + 1)) : ℚ)) = 0 := by
    linarith
  have h2 : ∑ d in Finset.range n_dcs, ∑ s in Finset.range n_stores,
      outboundCost df_outbound d s * ((v (Var.outbound (d + 1) (s + 1)) : ℚ)) = 0 := by
    linarith
  constructor
  · intro p hp d hd
    have hinner := (Finset.sum_eq_zero_iff_of_nonneg fun p hp => Finset.sum_nonneg
      fun d hd => mul_nonneg (hcin p (List.mem_range.mp (by simpa using hp))
        d (List.mem_range.mp (by simpa using hd))).le (by positivity)).mp h1
      p (Finset.mem_range.mpr hp)
    have hterm := (Finset.sum_eq_zero_iff_of_nonneg fun d hd => mul_nonneg
      (hcin p hp d (List.mem_range.mp (by simpa using hd))).le (by positivity)).mp hinner
      d (Finset.mem_range.mpr hd)
    have hcast : ((v (Var.inbound (p + 1) (d + 1)) : ℚ)) = 0 := by
      rcases mul_eq_zero.mp hterm with hc | hc
      · exact absurd hc (ne_of_gt (hcin p hp d hd))
      · exact hc
    exact_mod_cast hcast
  · intro d hd s hs
    have hinner := (Finset.sum_eq_zero_iff_of_nonneg fun d hd => Finset.sum_nonneg
      fun s hs => mul_nonneg (hcout d (List.mem_range.mp (by simpa using hd))
        s (List.mem_range.mp (by simpa using hs))).le (by positivity)).mp h2
      d (Finset.mem_range.mpr hd)
    have hterm := (Finset.sum_eq_zero_iff_of_nonneg fun s hs => mul_nonneg
      (hcout d hd s (List.mem_range.mp (by simpa using hs))).le (by positivity)).mp hinner
      s (Finset.mem_range.mpr hs)
    have hcast : ((v (Var.outbound (d + 1) (s + 1)) : ℚ)) = 0 := by
      rcases mul_eq_zero.mp hterm with hc | hc
      · exact absurd hc (ne_of_gt (hcout d hd s hs))
      · exact hc
    exact_mod_cast hcast

theorem extract_inbound_eq_zeroMat (v : Var → ℕ) (n_plants n_dcs : ℕ)
    (hzero : ∀ p < n_plants, ∀ d < n_dcs, v (Var.inbound (p + 1) (d + 1)) = 0) :
    extract_inbound (fun x => some (castAsg v x)) n_plants n_dcs = zeroMat n_plants n_dcs := by
  unfold extract_inbound zeroMat
  apply List.map_congr_left
  intro i hi
  apply List.map_congr_left
  intro j hj
  simp [castAsg, hzero i (List.mem_range.mp hi) j (List.mem_range.mp hj)]

theorem extract_outbound_eq_zeroMat (v : Var → ℕ) (n_dcs n_stores : ℕ)
    (hzero : ∀ d < n_dcs, ∀ s < n_stores, v (Var.outbound (d + 1) (s + 1)) = 0) :
    extract_outbound (fun x => some (castAsg v x)) n_dcs n_stores = zeroMat n_dcs n_stores := by
  unfold extract_outbound zeroMat
  apply List.map_congr_left
  intro i hi
  apply List.map_congr_left
  intro j hj
  simp [castAsg, hzero i (List.mem_range.mp hi) j (List.mem_range.mp hj)]

/- ### Claim C8 -/

/-- C8 counterexample: an input with demand 0 and *non-negative* (here
zero) costs for which a non-zero assignment (all flows 7) is also optimal
— it is feasible and attains the minimal objective 0 — and its extracted
outbound matrix is `[[7]]`, not all zeros.  Under zero demand and merely
non-negative costs the solve is therefore not guaranteed to yield
all-zero flow matrices: which optimum the external solver reports is not
determined by the model. -/
theorem zero_demand_nonzero_optimum_exists :
    OptimalSol (optModel [[9, 0]] [[9, 0]] [[9, 0]] 1 1 1) (fun _ => 7)
    ∧ extract_outbound (fun x => some (castAsg (fun _ => 7) x)) 1 1 = [[(7 : ℚ)]]
    ∧ ((7 : ℚ) ≠ 0)
    ∧ (∀ j < 1, 0 ≤ demandAt [[9, 0]] j)
    ∧ (∑ j in Finset.range 1, demandAt [[9, 0]] j = 0)
    ∧ (∀ p < 1, ∀ d < 1, 0 ≤ inboundCost [[9, 0]] p d)
    ∧ (∀ d < 1, ∀ s < 1, 0 ≤ outboundCost [[9, 0]] d s) := by
  refine ⟨⟨?_, ?_⟩, by decide, by decide, by decide,
    by simp [Finset.sum_range_one, demandAt, iloc], by decide, by decide⟩
  · rw [feasibleN_optModel_iff]
    constructor
    · intro j hj
      interval_cases j
      norm_num [demandAt, iloc, Finset.sum_range_one, castAsg]
    · intro dc hdc
      interval_cases dc
      norm_num [Finset.sum_range_one, castAsg]
  · intro w _
    rw [objEval_optModel, objEval_optModel]
    simp [inboundCost, outboundCost, iloc]

/-- C8 amended: for every input whose demand entries are non-negative and
sum to 0, with non-negative costs, the all-zero assignment is optimal with
objective value 0 and every optimal assignment has objective value 0 (so a
solve reports `Optimal` with objective 0); if moreover all cost entries
are strictly positive, every optimal assignment has all in-range flows 0
and both extracted flow matrices are all-zero. -/
theorem zero_total_demand_solves_to_zero
    (df_inbound df_outbound df_demand : Mat) (n_plants n_dcs n_stores : ℕ)
    (hd0 : ∀ j < n_stores, 0 ≤ demandAt df_demand j)
    (hdsum : ∑ j in Finset.range n_stores, demandAt df_demand j = 0)
    (hcin : ∀ p < n_plants, ∀ d < n_dcs, 0 ≤ inboundCost df_inbound p d)
    (hcout : ∀ d < n_dcs, ∀ s < n_stores, 0 ≤ outboundCost df_outbound d s) :
    OptimalSol (optModel df_inbound df_outbound df_demand n_plants n_dcs n_stores) zeroAsg
    ∧ objEval (optModel df_inbound df_outbound df_demand n_plants n_dcs n_stores) zeroAsg = 0
    ∧ (∀ v : Var → ℕ,
        OptimalSol (optModel df_inbound df_outbound df_demand n_plants n_dcs n_stores) v →
        objEval (optModel df_inbound df_outbound df_demand n_plants n_dcs n_stores) v = 0)
    ∧ ((∀ p < n_plants, ∀ d < n_dcs, 0 < inboundCost df_inbound p d) →
       (∀ d < n_dcs, ∀ s < n_stores, 0 < outboundCost df_outbound d s) →
       ∀ v : Var → ℕ,
        OptimalSol (optModel df_inbound df_outbound df_demand n_plants n_dcs n_stores) v →
        extract_inbound (fun x => some (castAsg v x)) n_plants n_dcs
            = zeroMat n_plants n_dcs
          ∧ extract_outbound (fun x => some (castAsg v x)) n_dcs n_stores
            = zeroMat n_dcs n_stores) := by
  have hdem : ∀ j < n_stores, demandAt df_demand j ≤ 0 := by
    intro j hj
    have := (Finset.sum_eq_zero_iff_of_nonneg
      (fun i hi => hd0 i (List.mem_range.mp (by simpa using hi)))).mp hdsum
      j (Finset.mem_range.mpr hj)
    exact this.le
  refine ⟨zeroAsg_optimal df_inbound df_outbound df_demand n_plants n_dcs n_stores
      hdem hcin hcout,
    objEval_zeroAsg df_inbound df_outbound df_demand n_plants n_dcs n_stores,
    fun v hv => optimal_objective_zero df_inbound df_outbound df_demand
      n_plants n_dcs n_stores hdem hcin hcout v hv,
    ?_⟩
  intro hcin' hcout' v hv
  have hz := optimal_flows_zero_of_pos_costs df_inbound df_outbound df_demand
    n_plants n_dcs n_stores hdem hcin' hcout' v hv
  exact ⟨extract_inbound_eq_zeroMat v n_plants n_dcs hz.1,
    extract_outbound_eq_zeroMat v n_dcs n_stores hz.2⟩

/-- Witness for the amended C8 at a one-plant, one-DC, one-store input with
positive costs and demand 0. -/
theorem zero_total_demand_solves_to_zero_witness :
    (∀ j < 1, 0 ≤ demandAt [[9, 0]] j) ∧
    ((OptimalSol (optModel [[9, 1]] [[9, 1]] [[9, 0]] 1 1 1) zeroAsg)
    ∧ objEval (optModel [[9, 1]] [[9, 1]] [[9, 0]] 1 1 1) zeroAsg = 0
    ∧ (∀ v : Var → ℕ,
        OptimalSol (optModel [[9, 1]] [[9, 1]] [[9, 0]] 1 1 1) v →
        objEval (optModel [[9, 1]] [[9, 1]] [[9, 0]] 1 1 1) v = 0)
    ∧ ((∀ p < 1, ∀ d < 1, 0 < inboundCost [[9, 1]] p d) →
       (∀ d < 1, ∀ s < 1, 0 < outboundCost [[9, 1]] d s) →
       ∀ v : Var → ℕ,
        OptimalSol (optModel [[9, 1]] [[9, 1]] [[9, 0]] 1 1 1) v →
        extract_inbound (fun x => some (castAsg v x)) 1 1 = zeroMat 1 1
          ∧ extract_outbound (fun x => some (castAsg v x)) 1 1 = zeroMat 1 1)) :=
  ⟨by decide,
   zero_total_demand_solves_to_zero [[9, 1]] [[9, 1]] [[9, 0]] 1 1 1
     (by decide) (by simp [Finset.sum_range_one, demandAt, iloc])
     (by decide) (by decide)⟩

/- ### Claim C9 -/

/-- C9: `display_results` computes the fill rate as
`total_shipped/total_demand` with no guard on the divisor, so whenever the
demand column sums to 0 the divisor of the fill-rate expression is 0 (a
division by zero in the Python code, where the quotient is undefined);
yet the solve itself succeeds on such input when costs are non-negative:
the all-zero assignment is optimal with objective 0 and extracts to
all-zero flow matrices. -/
theorem fill_rate_divides_by_zero_demand
    (status : LpStatusT) (objVal : ℚ)
    (inbound_flow outbound_flow df_inbound df_outbound df_demand : Mat)
    (n_plants n_dcs n_stores : ℕ)
    (hS : n_stores = df_demand.length)
    (hd0 : ∀ j < df_demand.length, 0 ≤ demandAt df_demand j)
    (hdsum : ((List.range df_demand.length).map fun j => iloc df_demand j 1).sum = 0)
    (hcin : ∀ p < n_plants, ∀ d < n_dcs, 0 ≤ inboundCost df_inbound p d)
    (hcout : ∀ d < n_dcs, ∀ s < n_stores, 0 ≤ outboundCost df_outbound d s) :
    (display_results status objVal inbound_flow outbound_flow df_demand).totalDemand = 0
    ∧ (display_results status objVal inbound_flow outbound_flow df_demand).fillRate
        = matSum outbound_flow / 0
    ∧ OptimalSol (optModel df_inbound df_outbound df_demand n_plants n_dcs n_stores) zeroAsg
    ∧ objEval (optModel df_inbound df_outbound df_demand n_plants n_dcs n_stores) zeroAsg = 0
    ∧ extract_inbound (fun x => some (castAsg zeroAsg x)) n_plants n_dcs
        = zeroMat n_plants n_dcs
    ∧ extract_outbound (fun x => some (castAsg zeroAsg x)) n_dcs n_stores
        = zeroMat n_dcs n_stores := by
  have hdem : ∀ j < n_stores, demandAt df_demand j ≤ 0 := by
    intro j hj
    rw [hS] at hj
    have hsum' : ∑ j in Finset.range df_demand.length, demandAt df_demand j = 0 := by
      rw [← sum_map_range]
      exact hdsum
    have := (Finset.sum_eq_zero_iff_of_nonneg
      (fun i hi => hd0 i (List.mem_range.mp (by simpa using hi)))).mp hsum'
      j (Finset.mem_range.mpr hj)
    exact this.le
  refine ⟨hdsum, ?_, zeroAsg_optimal df_inbound df_outbound df_demand
      n_plants n_dcs n_stores hdem hcin hcout,
    objEval_zeroAsg df_inbound df_outbound df_demand n_plants n_dcs n_stores,
    extract_inbound_eq_zeroMat zeroAsg n_plants n_dcs (fun _ _ _ _ => rfl),
    extract_outbound_eq_zeroMat zeroAsg n_dcs n_stores (fun _ _ _ _ => rfl)⟩
  show matSum outbound_flow
      / ((List.range df_demand.length).map fun j => iloc df_demand j 1).sum
    = matSum outbound_flow / 0
  rw [hdsum]

/-- Witness for C9 at a concrete one-store input with demand 0. -/
theorem fill_rate_divides_by_zero_demand_witness :
    ((1 : ℕ) = ([[9, 0]] : Mat).length) ∧
    ((display_results LpStatusT.Optimal 0 [[0]] [[0]] [[9, 0]]).totalDemand = 0
    ∧ (display_results LpStatusT.Optimal 0 [[0]] [[0]] [[9, 0]]).fillRate
        = matSum [[0]] / 0
    ∧ OptimalSol (optModel [[9, 1]] [[9, 1]] [[9, 0]] 1 1 1) zeroAsg
    ∧ objEval (optModel [[9, 1]] [[9, 1]] [[9, 0]] 1 1 1) zeroAsg = 0
    ∧ extract_inbound (fun x => some (castAsg zeroAsg x)) 1 1 = zeroMat 1 1
    ∧ extract_outbound (fun x => some (castAsg zeroAsg x)) 1 1 = zeroMat 1 1) :=
  ⟨by decide,
   fill_rate_divides_by_zero_demand LpStatusT.Optimal 0 [[0]] [[0]]
     [[9, 1]] [[9, 1]] [[9, 0]] 1 1 1
     (by decide) (by decide) (by simp [List.range_succ, iloc])
     (by decide) (by decide)⟩

/- ### Claim C7 -/

theorem decAsg_cast (v : Var → ℕ) (p0 d0 s0 : ℕ)
    (ho : 1 ≤ v (Var.outbound (d0 + 1) (s0 + 1)))
    (hi : 1 ≤ v (Var.inbound (p0 + 1) (d0 + 1))) (x : Var) :
    castAsg (decAsg v p0 d0 s0) x
      = castAsg v x
        - (if x = Var.outbound (d0 + 1) (s0 + 1) then 1 else 0)
        - (if x = Var.inbound (p0 + 1) (d0 + 1) then 1 else 0) := by
  by_cases h1 : x = Var.outbound (d0 + 1) (s0 + 1)
  · subst h1
    simp [castAsg, decAsg, Nat.cast_sub ho]
  · by_cases h2 : x = Var.inbound (p0 + 1) (d0 + 1)
    · subst h2
      simp [castAsg, decAsg, h1, Nat.cast_sub hi]
    · simp [castAsg, decAsg, h1, h2]

theorem decAsg_cast_outbound (v : Var → ℕ) (p0 d0 s0 : ℕ)
    (ho : 1 ≤ v (Var.outbound (d0 + 1) (s0 + 1)))
    (hi : 1 ≤ v (Var.inbound (p0 + 1) (d0 + 1))) (i j : ℕ) :
    castAsg (decAsg v p0 d0 s0) (Var.outbound (i + 1) (j + 1))
      = castAsg v (Var.outbound (i + 1) (j + 1))
        - (if i = d0 ∧ j = s0 then 1 else 0) := by
  rw [decAsg_cast v p0 d0 s0 ho hi]
  have h2 : Var.outbound (i + 1) (j + 1) ≠ Var.inbound (p0 + 1) (d0 + 1) := by simp
  rw [if_neg h2]
  by_cases h : i = d0 ∧ j = s0
  · obtain ⟨rfl, rfl⟩ := h
    simp
  · have hne : Var.outbound (i + 1) (j + 1) ≠ Var.outbound (d0 + 1) (s0 + 1) := by
      simp only [ne_eq, Var.outbound.injEq, not_and]
      intro hi1 hj1
      exact h ⟨Nat.succ_injective hi1, Nat.succ_injective hj1⟩
    rw [if_neg hne, if_neg h]
    ring

theorem decAsg_cast_inbound (v : Var → ℕ) (p0 d0 s0 : ℕ)
    (ho : 1 ≤ v (Var.outbound (d0 + 1) (s0 + 1)))
    (hi : 1 ≤ v (Var.inbound (p0 + 1) (d0 + 1))) (p d : ℕ) :
    castAsg (decAsg v p0 d0 s0) (Var.inbound (p + 1) (d + 1))
      = castAsg v (Var.inbound (p + 1) (d + 1))
        - (if p = p0 ∧ d = d0 then 1 else 0) := by
  rw [decAsg_cast v p0 d0 s0 ho hi]
  have h1 : Var.inbound (p + 1) (d + 1) ≠ Var.outbound (d0 + 1) (s0 + 1) := by simp
  rw [if_neg h1]
  by_cases h : p = p0 ∧ d = d0
  · obtain ⟨rfl, rfl⟩ := h
    simp
  · have hne : Var.inbound (p + 1) (d + 1) ≠ Var.inbound (p0 + 1) (d0 + 1) := by
      simp only [ne_eq, Var.inbound.injEq, not_and]
      intro hp1 hd1
      exact h ⟨Nat.succ_injective hp1, Nat.succ_injective hd1⟩
    rw [if_neg hne, if_neg h]
    ring

theorem double_sum_ite_eq (P D : ℕ) (c : ℕ → ℕ → ℚ) (p0 d0 : ℕ)
    (hp0 : p0 < P) (hd0 : d0 < D) :
    ∑ p in Finset.range P, ∑ d in Finset.range D,
        c p d * (if p = p0 ∧ d = d0 then (1 : ℚ) else 0) = c p0 d0 := by
  rw [Finset.sum_eq_single p0]
  · rw [Finset.sum_eq_single d0]
    · simp
    · intro d _ hne
      simp [hne]
    · intro habs
      exact absurd (Finset.mem_range.mpr hd0) habs
  · intro p _ hne
    apply Finset.sum_eq_zero
    intro d _
    simp [hne]
  · intro habs
    exact absurd (Finset.mem_range.mpr hp0) habs

theorem single_sum_ite_eq (D : ℕ) (d0 : ℕ) (hd0 : d0 < D) :
    ∑ i in Finset.range D, (if i = d0 then (1 : ℚ) else 0) = 1 := by
  rw [Finset.sum_ite_eq' (Finset.range D) d0 (fun _ => (1 : ℚ))]
  simp [hd0]

/-- C7: With strictly positive inbound and outbound cost entries and a
demand vector of non-negative integers (the data model's demand type;
demand is then always satisfiable since flows are unbounded above), any
optimal solution never ships strictly more than total demand: the sum of
all entries of the extracted outbound flow matrix is at most
`Σ_s demand[s]`. -/
theorem optimum_never_ships_more_than_total_demand
    (df_inbound df_outbound df_demand : Mat) (n_plants n_dcs n_stores : ℕ)
    (v : Var → ℕ)
    (hcin : ∀ p < n_plants, ∀ d < n_dcs, 0 < inboundCost df_inbound p d)
    (hcout : ∀ d < n_dcs, ∀ s < n_stores, 0 < outboundCost df_outbound d s)
    (hdem : ∀ s < n_stores, ∃ n : ℕ, demandAt df_demand s = (n : ℚ))
    (hopt : OptimalSol (optModel df_inbound df_outbound df_demand n_plants n_dcs n_stores) v) :
    matSum (extract_outbound (fun x => some (castAsg v x)) n_dcs n_stores)
      ≤ ∑ s in Finset.range n_stores, demandAt df_demand s := by
  rw [matSum_extract_outbound]
  simp only [Option.getD_some]
  by_contra hcon
  push_neg at hcon
  rw [Finset.sum_comm] at hcon
  obtain ⟨hdemand, hcons⟩ := (feasibleN_optModel_iff df_inbound df_outbound df_demand
    n_plants n_dcs n_stores v).mp hopt.1
  obtain ⟨s0, hs0mem, hs0lt⟩ := Finset.exists_lt_of_sum_lt hcon
  have hs0S : s0 < n_stores := Finset.mem_range.mp hs0mem
  obtain ⟨n0, hn0⟩ := hdem s0 hs0S
  have hcastsum : (↑(∑ i in Finset.range n_dcs, v (Var.outbound (i + 1) (s0 + 1))) : ℚ)
      = ∑ i in Finset.range n_dcs, ((v (Var.outbound (i + 1) (s0 + 1)) : ℚ)) := by
    push_cast
    rfl
  have hn0lt : n0 < ∑ i in Finset.range n_dcs, v (Var.outbound (i + 1) (s0 + 1)) := by
    have h := hs0lt
    simp only [castAsg] at h
    rw [hn0, ← hcastsum] at h
    exact_mod_cast h
  have hcol1 : 1 ≤ ∑ i in Finset.range n_dcs, v (Var.outbound (i + 1) (s0 + 1)) :=
    le_trans (Nat.succ_le_succ (Nat.zero_le n0)) (Nat.succ_le_of_lt hn0lt)
  obtain ⟨d0, hd0mem, hd0ne⟩ := Finset.exists_ne_zero_of_sum_ne_zero
    (Nat.one_le_iff_ne_zero.mp hcol1)
  have hd0D : d0 < n_dcs := Finset.mem_range.mp hd0mem
  have ho1 : 1 ≤ v (Var.outbound (d0 + 1) (s0 + 1)) := Nat.one_le_iff_ne_zero.mpr hd0ne
  have hconsd0 := hcons d0 hd0D
  have hsingle : v (Var.outbound (d0 + 1) (s0 + 1))
      ≤ ∑ j in Finset.range n_stores, v (Var.outbound (d0 + 1) (j + 1)) :=
    @Finset.single_le_sum ℕ ℕ _ (fun j => v (Var.outbound (d0 + 1) (j + 1)))
      (Finset.range n_stores) (fun j _ => Nat.zero_le _) s0 hs0mem
  have hrow1 : 1 ≤ ∑ j in Finset.range n_stores, v (Var.outbound (d0 + 1) (j + 1)) :=
    le_trans ho1 hsingle
  have hin_ne : ∑ p in Finset.range n_plants, v (Var.inbound (p + 1) (d0 + 1)) ≠ 0 := by
    omega
  obtain ⟨p0, hp0mem, hp0ne⟩ := Finset.exists_ne_zero_of_sum_ne_zero hin_ne
  have hp0P : p0 < n_plants := Finset.mem_range.mp hp0mem
  have hi1 : 1 ≤ v (Var.inbound (p0 + 1) (d0 + 1)) := Nat.one_le_iff_ne_zero.mpr hp0ne
  have hwfeas : FeasibleN
      (optModel df_inbound df_outbound df_demand n_plants n_dcs n_stores)
      (decAsg v p0 d0 s0) := by
    rw [feasibleN_optModel_iff]
    refine ⟨?_, ?_⟩
    · intro j hj
      have hsum : ∑ i in Finset.range n_dcs,
            ((decAsg v p0 d0 s0 (Var.outbound (i + 1) (j + 1)) : ℚ))
          = (∑ i in Finset.range n_dcs, ((v (Var.outbound (i + 1) (j + 1)) : ℚ)))
            - ∑ i in Finset.range n_dcs, (if i = d0 ∧ j = s0 then (1 : ℚ) else 0) := by
        rw [← Finset.sum_sub_distrib]
        apply Finset.sum_congr rfl
        intro i _
        have hterm := decAsg_cast_outbound v p0 d0 s0 ho1 hi1 i j
        simp only [castAsg] at hterm
        rw [hterm]
      rw [hsum]
      by_cases hj0 : j = s0
      · rw [hj0]
        have hite : ∑ i in Finset.range n_dcs,
            (if i = d0 ∧ s0 = s0 then (1 : ℚ) else 0) = 1 := by
          simp only [eq_self_iff_true, and_true]
          exact single_sum_ite_eq n_dcs d0 hd0D
        rw [hite, hn0]
        have hstep : (↑(n0 + 1) : ℚ)
            ≤ ↑(∑ i in Finset.range n_dcs, v (Var.outbound (i + 1) (s0 + 1))) := by
          exact_mod_cast Nat.succ_le_of_lt hn0lt
        rw [hcastsum] at hstep
        push_cast at hstep
        linarith
      · have hite : ∑ i in Finset.range n_dcs,
            (if i = d0 ∧ j = s0 then (1 : ℚ) else 0) = 0 := by
          apply Finset.sum_eq_zero
          intro i _
          simp [hj0]
        rw [hite]
        have := hdemand j hj
        linarith
    · intro dc hdc
      have hL : ∑ p in Finset.range n_plants,
            castAsg (decAsg v p0 d0 s0) (Var.inbound (p + 1) (dc + 1))
          = (∑ p in Finset.range n_plants, castAsg v (Var.inbound (p + 1) (dc + 1)))
            - ∑ p in Finset.range n_plants, (if p = p0 ∧ dc = d0 then (1 : ℚ) else 0) := by
        rw [← Finset.sum_sub_distrib]
        apply Finset.sum_congr rfl
        intro p _
        rw [decAsg_cast_inbound v p0 d0 s0 ho1 hi1 p dc]
      have hR : ∑ j in Finset.range n_stores,
            castAsg (decAsg v p0 d0 s0) (Var.outbound (dc + 1) (j + 1))
          = (∑ j in Finset.range n_stores, castAsg v (Var.outbound (dc + 1) (j + 1)))
            - ∑ j in Finset.range n_stores, (if dc = d0 ∧ j = s0 then (1 : ℚ) else 0) := by
        rw [← Finset.sum_sub_distrib]
        apply Finset.sum_congr rfl
        intro j _
        rw [decAsg_cast_outbound v p0 d0 s0 ho1 hi1 dc j]
      have hVeq : ∑ p in Finset.range n_plants, castAsg v (Var.inbound (p + 1) (dc + 1))
          = ∑ j in Finset.range n_stores, castAsg v (Var.outbound (dc + 1) (j + 1)) := by
        have h := hcons dc hdc
        simp only [castAsg]
        exact_mod_cast h
      have hIte : ∑ p in Finset.range n_plants, (if p = p0 ∧ dc = d0 then (1 : ℚ) else 0)
          = ∑ j in Finset.range n_stores, (if dc = d0 ∧ j = s0 then (1 : ℚ) else 0) := by
        by_cases hdcd0 : dc = d0
        · subst hdcd0
          have h1 : ∑ p in Finset.range n_plants,
              (if p = p0 ∧ dc = dc then (1 : ℚ) else 0) = 1 := by
            simp only [eq_self_iff_true, and_true]
            exact single_sum_ite_eq n_plants p0 hp0P
          have h2 : ∑ j in Finset.range n_stores,
              (if dc = dc ∧ j = s0 then (1 : ℚ) else 0) = 1 := by
            simp only [eq_self_iff_true, true_and]
            exact single_sum_ite_eq n_stores s0 hs0S
          rw [h1, h2]
        · have h1 : ∑ p in Finset.range n_plants,
              (if p = p0 ∧ dc = d0 then (1 : ℚ) else 0) = 0 := by
            apply Finset.sum_eq_zero
            intro p _
            simp [hdcd0]
          have h2 : ∑ j in Finset.range n_stores,
              (if dc = d0 ∧ j = s0 then (1 : ℚ) else 0) = 0 := by
            apply Finset.sum_eq_zero
            intro j _
            simp [hdcd0]
          rw [h1, h2]
      have hQ : ∑ p in Finset.range n_plants,
            castAsg (decAsg v p0 d0 s0) (Var.inbound (p + 1) (dc + 1))
          = ∑ j in Finset.range n_stores,
            castAsg (decAsg v p0 d0 s0) (Var.outbound (dc + 1) (j + 1)) := by
        rw [hL, hR, hVeq, hIte]
      simp only [castAsg] at hQ
      exact_mod_cast hQ
  have hIn : ∑ p in Finset.range n_plants, ∑ d in Finset.range n_dcs,
        inboundCost df_inbound p d
          * castAsg (decAsg v p0 d0 s0) (Var.inbound (p + 1) (d + 1))
      = (∑ p in Finset.range n_plants, ∑ d in Finset.range n_dcs,
          inboundCost df_inbound p d * castAsg v (Var.inbound (p + 1) (d + 1)))
        - inboundCost df_inbound p0 d0 := by
    rw [← double_sum_ite_eq n_plants n_dcs
      (fun p d => inboundCost df_inbound p d) p0 d0 hp0P hd0D]
    rw [← Finset.sum_sub_distrib]
    apply Finset.sum_congr rfl
    intro p _
    rw [← Finset.sum_sub_distrib]
    apply Finset.sum_congr rfl
    intro d _
    rw [decAsg_cast_inbound v p0 d0 s0 ho1 hi1 p d]
    ring
  have hOut : ∑ d in Finset.range n_dcs, ∑ s in Finset.range n_stores,
        outboundCost df_outbound d s
          * castAsg (decAsg v p0 d0 s0) (Var.outbound (d + 1) (s + 1))
      = (∑ d in Finset.range n_dcs, ∑ s in Finset.range n_stores,
          outboundCost df_outbound d s * castAsg v (Var.outbound (d + 1) (s + 1)))
        - outboundCost df_outbound d0 s0 := by
    rw [← double_sum_ite_eq n_dcs n_stores
      (fun d s => outboundCost df_outbound d s) d0 s0 hd0D hs0S]
    rw [← Finset.sum_sub_distrib]
    apply Finset.sum_congr rfl
    intro d _
    rw [← Finset.sum_sub_distrib]
    apply Finset.sum_congr rfl
    intro s _
    rw [decAsg_cast_outbound v p0 d0 s0 ho1 hi1 d s]
    ring
  have hobj : objEval (optModel df_inbound df_outbound df_demand n_plants n_dcs n_stores)
        (decAsg v p0 d0 s0)
      = objEval (optModel df_inbound df_outbound df_demand n_plants n_dcs n_stores) v
        - inboundCost df_inbound p0 d0 - outboundCost df_outbound d0 s0 := by
    rw [objEval_optModel, objEval_optModel]
    simp only [castAsg] at hIn hOut
    rw [hIn, hOut]
    ring
  have hle := hopt.2 (decAsg v p0 d0 s0) hwfeas
  rw [hobj] at hle
  have hc1 := hcin p0 hp0P d0 hd0D
  have hc2 := hcout d0 hd0D s0 hs0S
  linarith

/-- On the shared witness input (one plant, one DC, one store, both unit
costs 1, demand 0) the all-zero assignment is optimal. -/
theorem unitModel_zeroAsg_optimal :
    OptimalSol (optModel [[9, 1]] [[9, 1]] [[9, 0]] 1 1 1) zeroAsg :=
  zeroAsg_optimal [[9, 1]] [[9, 1]] [[9, 0]] 1 1 1 (by decide) (by decide) (by decide)

/-- Witness for C2 at the shared one-plant, one-DC, one-store input. -/
theorem conservation_constraints_balance_flows_witness :
    (0 : ℕ) < 1 ∧
    ((conservationConstr 1 1 0 ∈ (optModel [[9, 1]] [[9, 1]] [[9, 0]] 1 1 1).constraints)
    ∧ (conservationConstr 1 1 0).sense = Sense.eq
    ∧ (∀ w : Var → ℚ, (conservationConstr 1 1 0).holds w ↔
        ∑ i in Finset.range 1, w (Var.inbound (i + 1) (0 + 1))
          = ∑ j in Finset.range 1, w (Var.outbound (0 + 1) (j + 1)))
    ∧ colSum (extract_inbound (fun x => some (castAsg zeroAsg x)) 1 1) 0
        = rowSum (extract_outbound (fun x => some (castAsg zeroAsg x)) 1 1) 0) :=
  ⟨by decide,
   conservation_constraints_balance_flows [[9, 1]] [[9, 1]] [[9, 0]] 1 1 1
     zeroAsg 0 (by decide) unitModel_zeroAsg_optimal⟩

/-- Witness for C7 at the shared input: positive costs, demand 0, the
all-zero optimum ships 0 ≤ 0. -/
theorem optimum_never_ships_more_than_total_demand_witness :
    (0 : ℚ) < inboundCost [[9, 1]] 0 0 ∧ (0 : ℚ) < outboundCost [[9, 1]] 0 0 ∧
    matSum (extract_outbound (fun x => some (castAsg zeroAsg x)) 1 1)
      ≤ ∑ s in Finset.range 1, demandAt [[9, 0]] s :=
  ⟨by decide, by decide,
   optimum_never_ships_more_than_total_demand [[9, 1]] [[9, 1]] [[9, 0]] 1 1 1
     zeroAsg (by decide) (by decide)
     (by
       intro s hs
       interval_cases s
       exact ⟨0, by norm_num [demandAt, iloc]⟩)
     unitModel_zeroAsg_optimal⟩
